import Mathlib

/-!
Shallow embedding of the qcow2-rs image-decode pipeline (header parsing,
L1/L2 address translation, guest reads).  Machine integers are modelled as
Nat; every multi-byte value read from a byte source is assembled big-endian
from bytes reduced mod 256, so it is below 2^64 by construction.  The
positioned byte source (external collaborator) is modelled as a total
function from offsets to byte values; I/O failures of the backing source are
not modelled.  Fallible operations return Except Error.
-/

namespace Qcow2Rs

/-- Error taxonomy from src/error.rs.  The Io payload (an io::Error) carries
no structure the embedded code inspects, so it is dropped. -/
inductive Error where
  | IoError : Error
  | Poison : String → Error
  | FileType : Error
  | Version : Nat → Error
  | UnsupportedFeature : String → Error
  | FileFormat : String → Error
  | Internal : String → Error
deriving DecidableEq

/-- From src/int.rs, trait Integer: div_rem via num::Integer, which for
unsigned integers is truncated division and remainder. -/
def Integer.div_rem (a b : Nat) : Nat × Nat := (a / b, a % b)

/-- From src/int.rs, trait Integer, lines 5-11: returns d + 1 when the
remainder is zero and d otherwise (the comment in the source says
"Divide, rounding up."). -/
def Integer.div_ceil (a b : Nat) : Nat :=
  let dm := Integer.div_rem a b
  if dm.2 = 0 then dm.1 + 1 else dm.1

/-- From src/int.rs, trait Integer: amount to add to reach a multiple. -/
def Integer.padding_to_multiple (a b : Nat) : Nat :=
  let m := a % b
  if m = 0 then 0 else b - m

/-- Modelled from the spec: the free function div_rem(a,b) (divmod) that
header.rs imports from the int module; the staged src/int.rs holds an older
trait-based module without it. -/
def div_rem (a b : Nat) : Nat × Nat := (a / b, a % b)

/-- Modelled from the spec: the free function div_ceil(a,b) (ceiling
division on unsigned 64-bit inputs) that header.rs imports from the int
module; the staged src/int.rs holds an older trait-based module without it. -/
def div_ceil (a b : Nat) : Nat :=
  if a % b = 0 then a / b else a / b + 1

/-- Modelled from the spec: the free function is_multiple_of(a,b) that
header.rs imports from the int module; the staged src/int.rs holds an older
trait-based module without it. -/
def is_multiple_of (a b : Nat) : Bool := a % b == 0

/-- Big-endian read of n bytes starting at off; bytes are reduced mod 256
(the source of bytes has type u8 in the code). -/
def beUInt (bytes : Nat → Nat) (off n : Nat) : Nat :=
  (List.range n).foldl (fun acc i => acc * 256 + bytes (off + i) % 256) 0

def MAGIC : Nat := 0x514649fb

def SUPPORTED_VERSION : Nat := 3

/-- Common header for all versions, src/header.rs. -/
structure HeaderCommon where
  magic : Nat
  version : Nat
  backing_file_offset : Nat
  backing_file_size : Nat
  cluster_bits : Nat
  size : Nat
  crypt_method : Nat
  l1_size : Nat
  l1_table_offset : Nat
  refcount_table_offset : Nat
  refcount_table_clusters : Nat
  nb_snapshots : Nat
  snapshots_offset : Nat
deriving DecidableEq

/-- Header.cluster_size: 1 << cluster_bits. -/
def HeaderCommon.cluster_size (h : HeaderCommon) : Nat := 1 <<< h.cluster_bits

/-- Header.guest_size. -/
def HeaderCommon.guest_size (h : HeaderCommon) : Nat := h.size

/-- Header.max_virtual_blocks. -/
def HeaderCommon.max_virtual_blocks (h : HeaderCommon) : Nat :=
  div_ceil h.size h.cluster_size

/-- Header.l2_entries: cluster_size / size_of(u64). -/
def HeaderCommon.l2_entries (h : HeaderCommon) : Nat := h.cluster_size / 8

/-- Header.l1_entries. -/
def HeaderCommon.l1_entries (h : HeaderCommon) : Nat :=
  div_ceil h.max_virtual_blocks h.l2_entries

/-- Header.guest_offset_info: (l1_l2_idx, l2_block_idx, block_offset). -/
def HeaderCommon.guest_offset_info (h : HeaderCommon) (pos : Nat) :
    Nat × Nat × Nat :=
  let bi := div_rem pos h.cluster_size
  let li := div_rem bi.1 h.l2_entries
  (li.1, li.2, bi.2)

/-- Header.validate_common, src/header.rs lines 125-161. -/
def validate_common (h : HeaderCommon) : Except Error Unit :=
  if h.magic ≠ MAGIC then
    .error .FileType
  else if h.version ≠ SUPPORTED_VERSION then
    .error (.Version h.version)
  else if h.backing_file_offset ≠ 0 then
    .error (.UnsupportedFeature "backing file")
  else if h.cluster_bits < 9 ∨ h.cluster_bits > 22 then
    .error (.FileFormat ("bad cluster_bits " ++ toString h.cluster_bits))
  else if h.crypt_method ≠ 0 then
    .error (.UnsupportedFeature "encryption")
  else if h.l1_size ≠ h.l1_entries then
    .error (.FileFormat "bad L1 entry count")
  else if !(is_multiple_of h.l1_table_offset h.cluster_size) then
    .error (.FileFormat "bad L1 offset")
  else if !(is_multiple_of h.refcount_table_offset h.cluster_size) then
    .error (.FileFormat "bad refcount offset")
  else if !(is_multiple_of h.snapshots_offset h.cluster_size) then
    .error (.FileFormat "bad snapshots offset")
  else
    .ok ()

/-- The common header as decoded by Header.read_common: thirteen big-endian
fields read sequentially from file offset 0, ending at offset 72. -/
def parse_common (bytes : Nat → Nat) : HeaderCommon :=
  { magic := beUInt bytes 0 4
    version := beUInt bytes 4 4
    backing_file_offset := beUInt bytes 8 8
    backing_file_size := beUInt bytes 16 4
    cluster_bits := beUInt bytes 20 4
    size := beUInt bytes 24 8
    crypt_method := beUInt bytes 32 4
    l1_size := beUInt bytes 36 4
    l1_table_offset := beUInt bytes 40 8
    refcount_table_offset := beUInt bytes 48 8
    refcount_table_clusters := beUInt bytes 56 4
    nb_snapshots := beUInt bytes 60 4
    snapshots_offset := beUInt bytes 64 8 }

/-- Header.read_common: decode the 72-byte common header, then run
validate_common.  On success the cursor stands at offset 72. -/
def read_common (bytes : Nat → Nat) : Except Error (HeaderCommon × Nat) :=
  let c := parse_common bytes
  match validate_common c with
  | .error e => .error e
  | .ok _ => .ok (c, 72)

/-- One record of the feature-name-table extension, src/extension.rs. -/
structure FeatureName where
  kind : Nat
  bit : Nat
  name : String
deriving DecidableEq

/-- Static names of the incompatible feature set, src/header.rs. -/
def INCOMPATIBLE_NAMES : List String := ["dirty", "corrupt"]

def INCOMPATIBLE_CORRUPT : Nat := 2

/-- Debug rendering of a FeatureKind (derived Debug in src/feature.rs). -/
def feature_kind_str (kind : Nat) : String :=
  if kind = 0 then "Incompatible"
  else if kind = 1 then "Compatible"
  else "Autoclear"

/-- FeatureNameTable.name: first matching record, else a literal fallback. -/
def feature_name_lookup (table : List FeatureName) (kind bit : Nat) : String :=
  match table.find? (fun n => n.kind == kind && n.bit == bit) with
  | some n => n.name
  | none => "bit " ++ toString bit ++ " of " ++ feature_kind_str kind

/-- FeatureDebug::fmt, src/feature.rs: walk the set bits of the mask from
least to most significant, separated by " | ", naming each from the static
list or the feature-name table.  The source walks a u64, so 64 steps of
fuel always suffice; the Rust loop shifts the mask right once per step. -/
def feature_debug_render (names : List String) (table : List FeatureName)
    (kind : Nat) : Nat → Nat → Nat → Bool → String
  | 0, _, _, _ => ""
  | fuel + 1, bits, pos, first =>
    if bits = 0 then ""
    else if bits % 2 = 0 then
      feature_debug_render names table kind fuel (bits / 2) (pos + 1) first
    else
      (if first then "" else " | ") ++
        (if pos < names.length then names.getD pos ""
         else feature_name_lookup table kind pos) ++
        feature_debug_render names table kind fuel (bits / 2) (pos + 1) false

/-- Feature.unknown, src/feature.rs: the bits at positions at or beyond the
static name list (bits & !((1 << known) - 1), with ! the u64 complement). -/
def feature_unknown (names_len : Nat) (bits : Nat) : Nat :=
  bits &&& ((2 ^ 64 - 1) ^^^ ((1 <<< names_len) - 1))

/-- Feature.ensure_known, src/feature.rs: error iff some unknown bit is set,
with the debug rendering of the unknown bits as the message. -/
def ensure_known (names : List String) (kind : Nat) (table : List FeatureName)
    (bits : Nat) : Except Error Unit :=
  let unknown := feature_unknown names.length bits
  if unknown = 0 then .ok ()
  else .error (.UnsupportedFeature
    (feature_debug_render names table kind 64 unknown 0 true))

/-- Version-3 header suffix, src/header.rs (the feature masks are kept as
raw u64 values; unknown extensions are not tracked here). -/
structure HeaderV3 where
  incompatible : Nat
  compatible : Nat
  autoclear : Nat
  refcount_order : Nat
  header_length : Nat
  feature_name_table : List FeatureName
  backing_file_name : List Nat
deriving DecidableEq

/-- read_exact_at against the backing byte source: the n bytes starting at
pos (each reduced mod 256, matching the u8 element type). -/
def read_exact_at (io : Nat → Nat) (pos n : Nat) : List Nat :=
  (List.range n).map (fun i => io (pos + i) % 256)

/-- Header.read_v3, src/header.rs lines 243-286.  The extension phase
(read_extensions plus the typed extension readers) is modelled abstractly by
`ext`, a function from the cursor position at which extensions begin to
either an error or the cursor position after the terminator together with
the feature-name table collected from the extensions; the theorems below
quantify over it.  Everything else follows the source line by line: the
three feature masks, refcount_order and header_length are read at offsets
72..104; a declared header_length above the cursor (104) advances the
cursor; actual_length is the cursor position just before extensions; after
the extensions come the backing-file branch, the corrupt-bit check,
ensure_known on the incompatible set, the refcount_order bound, the
header_length == actual_length check and the first-cluster bound. -/
def read_v3 (bytes : Nat → Nat) (c : HeaderCommon)
    (ext : Nat → Except Error (Nat × List FeatureName)) :
    Except Error HeaderV3 :=
  let incompatible := beUInt bytes 72 8
  let compatible := beUInt bytes 80 8
  let autoclear := beUInt bytes 88 8
  let refcount_order := beUInt bytes 96 4
  let header_length := beUInt bytes 100 4
  let pos0 := if header_length > 104 then header_length else 104
  let actual_length := pos0
  match ext pos0 with
  | .error e => .error e
  | .ok (posE, table) =>
    let validate : Nat → List Nat → Except Error HeaderV3 := fun posF name =>
      if incompatible &&& INCOMPATIBLE_CORRUPT ≠ 0 then
        .error (.UnsupportedFeature "corrupt bit")
      else match ensure_known INCOMPATIBLE_NAMES 0 table incompatible with
      | .error e => .error e
      | .ok _ =>
        if refcount_order > 6 then
          .error (.FileFormat ("bad refcount_order " ++ toString refcount_order))
        else if header_length ≠ actual_length then
          .error (.FileFormat ("header is " ++ toString actual_length ++
            " bytes, file claims " ++ toString header_length))
        else if posF > c.cluster_size then
          .error (.FileFormat "complete header too big for first cluster")
        else
          .ok { incompatible := incompatible, compatible := compatible,
                autoclear := autoclear, refcount_order := refcount_order,
                header_length := header_length, feature_name_table := table,
                backing_file_name := name }
    if c.backing_file_offset ≠ 0 then
      if c.backing_file_offset ≠ posE then
        .error (.FileFormat "backing file offset not consistent with extensions")
      else
        validate (posE + c.backing_file_size)
          (read_exact_at bytes posE c.backing_file_size)
    else
      validate posE []

/-- Header.read (called from Qcow2::open): read_common then read_v3 over a
cursor that starts at file offset 0. -/
def header_read (bytes : Nat → Nat)
    (ext : Nat → Except Error (Nat × List FeatureName)) :
    Except Error (HeaderCommon × HeaderV3) :=
  match read_common bytes with
  | .error e => .error e
  | .ok (c, _) =>
    match read_v3 bytes c ext with
    | .error e => .error e
    | .ok v3 => .ok (c, v3)

/-- The cursor position at which read_v3 invokes the extension reader: the
end of the fixed v3 fields (byte 104), or the declared header_length when
that is larger (the declared length is then treated as padding to skip). -/
def extensions_start (bytes : Nat → Nat) : Nat :=
  if beUInt bytes 100 4 > 104 then beUInt bytes 100 4 else 104

/-- The facade, src/lib.rs: parsed header, backing byte source and the
shared L2 cache field (a Mutex<LruCache<u64, u64>> in the source, modelled
as its association list of key-value pairs).  Only the common header fields
are consulted by the read path. -/
structure Qcow2 where
  header : HeaderCommon
  io : Nat → Nat
  l2_cache : List (Nat × Nat)

def L2_CACHE_SIZE : Nat := 32

/-- u64 read from the backing source at an offset: 8 bytes big-endian. -/
def read_u64_at (io : Nat → Nat) (off : Nat) : Nat := beUInt io off 8

/-- u64 read from an in-memory byte buffer (the L1 table): fails like the
Rust ReadIntAt impl when the 8 bytes are not all inside the buffer. -/
def vec_read_u64_at (v : List Nat) (off : Nat) : Except Error Nat :=
  if off + 8 ≤ v.length then .ok (beUInt (fun i => v.getD i 0) off 8)
  else .error .IoError

def L1_COW : Nat := 1 <<< 63

def L1_RESERVED : Nat := (0x7F <<< 56) ||| 0xFF

def L1_POS : Nat := (2 ^ 64 - 1) ^^^ (L1_COW ||| L1_RESERVED)

inductive L1Entry where
  | Empty : L1Entry
  | Standard : Nat → Bool → L1Entry
deriving DecidableEq

def L2_COW : Nat := 1 <<< 63

def L2_COMPRESSED : Nat := 1 <<< 62

def L2_ZERO : Nat := 1

def L2_RESERVED : Nat := (0x3F <<< 56) ||| 0xFE

def L2_POS : Nat := (2 ^ 64 - 1) ^^^ (L2_COW ||| L2_COMPRESSED ||| L2_ZERO ||| L2_RESERVED)

def L2_COMPRESSED_MASK : Nat := (2 ^ 64 - 1) ^^^ (L2_COW ||| L2_COMPRESSED)

inductive L2Entry where
  | Empty : L2Entry
  | Standard : Nat → Bool → Bool → L2Entry
  | Compressed : Nat → Bool → Nat → L2Entry
deriving DecidableEq

/-- Qcow2::l1_entry_read, src/read.rs lines 53-68 (a method that uses only
the in-memory L1 buffer): read the u64 at index*8, reject entries with a
reserved bit set, and decode Empty or Standard{pos, cow}. -/
def l1_entry_read (l1 : List Nat) (l1_l2_idx : Nat) : Except Error L1Entry :=
  let offset := l1_l2_idx * 8
  match vec_read_u64_at l1 offset with
  | .error e => .error e
  | .ok entry =>
    if entry &&& L1_RESERVED ≠ 0 then
      .error (.FileFormat "reserved bit used in L1 entry")
    else
      let pos := entry &&& L1_POS
      if pos = 0 then .ok .Empty
      else .ok (.Standard pos (decide (entry &&& L1_COW ≠ 0)))

/-- Qcow2::l2_entry_read_raw, src/read.rs lines 69-73: read the u64 at
l2_pos + index*8 straight from the backing source (the source carries a
TODO comment about caching; the l2_cache field is not consulted). -/
def l2_entry_read_raw (q : Qcow2) (l2_pos l2_block_idx : Nat) :
    Except Error Nat :=
  let offset := l2_pos + l2_block_idx * 8
  .ok (read_u64_at q.io offset)

/-- Qcow2::l2_entry_parse, src/read.rs lines 74-101. -/
def l2_entry_parse (q : Qcow2) (entry : Nat) : Except Error L2Entry :=
  let cow := decide (entry &&& L2_COW ≠ 0)
  if entry &&& L2_COMPRESSED ≠ 0 then
    let x := 70 - q.header.cluster_bits
    let e := entry &&& L2_COMPRESSED_MASK
    let pos := e &&& ((1 <<< x) - 1)
    let size := (e >>> x) * 512
    .ok (.Compressed pos cow size)
  else if entry &&& L2_RESERVED ≠ 0 then
    .error (.FileFormat "reserved bit used in L2 entry")
  else
    let pos := entry &&& L2_POS
    if pos ≠ 0 then .ok (.Standard pos cow (decide (entry &&& L2_ZERO ≠ 0)))
    else .ok .Empty

/-- Qcow2::l2_entry_read, src/read.rs lines 102-112. -/
def l2_entry_read (q : Qcow2) (l1 : List Nat) (guest_offset : Nat) :
    Except Error L2Entry :=
  let info := q.header.guest_offset_info guest_offset
  match l1_entry_read l1 info.1 with
  | .error e => .error e
  | .ok .Empty => .ok .Empty
  | .ok (.Standard pos _) =>
    match l2_entry_read_raw q pos info.2.1 with
    | .error e => .error e
    | .ok raw => l2_entry_parse q raw

/-- Qcow2::zero_fill: overwrite every byte of the slice with zero. -/
def zero_fill (buf : List Nat) : List Nat := buf.map (fun _ => 0)

/-- Qcow2::guest_block_read, src/read.rs lines 118-133: returns the bytes
the slice holds afterwards. -/
def guest_block_read (q : Qcow2) (entry : L2Entry) (offset : Nat)
    (buf : List Nat) : Except Error (List Nat) :=
  match entry with
  | .Empty => .ok (zero_fill buf)
  | .Standard pos _ zero =>
    if zero then .ok (zero_fill buf)
    else .ok (read_exact_at q.io (pos + offset) buf.length)
  | .Compressed _ _ _ => .error (.UnsupportedFeature "compressed blocks")

/-- The while loop of Qcow2::guest_read, src/read.rs lines 144-153, as a
function returning the bytes of the (already truncated) buffer afterwards.
Each iteration consumes size = min(len, cluster_size - offset) ≥ 1 bytes,
so a fuel of the buffer length (what guest_read passes) always suffices;
the fuel-exhausted branch is unreachable then (see the lemmas below). -/
def guest_read_loop (q : Qcow2) (l1 : List Nat) :
    Nat → List Nat → Nat → Nat → Except Error (List Nat)
  | fuel, buf, offset, guest_block_pos =>
    if buf.length = 0 then .ok buf
    else match fuel with
    | 0 => .error (.Internal "guest_read loop ran out of fuel")
    | fuel + 1 =>
      match l2_entry_read q l1 guest_block_pos with
      | .error e => .error e
      | .ok entry =>
        let size := min buf.length (q.header.cluster_size - offset)
        match guest_block_read q entry offset (buf.take size) with
        | .error e => .error e
        | .ok written =>
          match guest_read_loop q l1 fuel (buf.drop size) 0
              (guest_block_pos + q.header.cluster_size) with
          | .error e => .error e
          | .ok rest => .ok (written ++ rest)

/-- Qcow2::guest_read, src/read.rs lines 134-155: EOF check, truncation of
the buffer to the guest size, and the per-cluster loop.  Returns the byte
count together with the buffer contents afterwards (the suffix beyond the
truncation point is never written). -/
def guest_read (q : Qcow2) (l1 : List Nat) (pos : Nat) (buf : List Nat) :
    Except Error (Nat × List Nat) :=
  if q.header.guest_size ≤ pos then .ok (0, buf)
  else
    let ret := min buf.length (q.header.guest_size - pos)
    let offset := pos % q.header.cluster_size
    let guest_block_pos := pos - offset
    match guest_read_loop q l1 ret (buf.take ret) offset guest_block_pos with
    | .error e => .error e
    | .ok written => .ok (ret, written ++ buf.drop ret)

/-- Reader, src/read.rs: a facade reference plus the in-memory L1 table. -/
structure Reader where
  q : Qcow2
  l1 : List Nat

/-- ReadAt::read_at for Reader, src/read.rs lines 181-183. -/
def Reader.read_at (r : Reader) (pos : Nat) (buf : List Nat) :
    Except Error (Nat × List Nat) :=
  guest_read r.q r.l1 pos buf

/-- Size::size for Reader, src/read.rs lines 186-192. -/
def Reader.size (r : Reader) : Nat := r.q.header.guest_size

/-! Concrete states used by witnesses and counterexamples. -/

/-- A small valid header: 512-byte clusters, 1 KiB guest. -/
def hdr0 : HeaderCommon :=
  { magic := MAGIC, version := 3, backing_file_offset := 0,
    backing_file_size := 0, cluster_bits := 9, size := 1024,
    crypt_method := 0, l1_size := 1, l1_table_offset := 512,
    refcount_table_offset := 0, refcount_table_clusters := 0,
    nb_snapshots := 0, snapshots_offset := 0 }

/-- A facade over hdr0 with an all-zero backing source. -/
def q0 : Qcow2 := { header := hdr0, io := fun _ => 0, l2_cache := [] }

/-- A reader over q0 whose L1 table is a single empty entry. -/
def r0 : Reader := { q := q0, l1 := List.replicate 8 0 }

/-- A header with 64 KiB clusters (cluster_bits = 16) and a 200 MiB + 1 B
guest, the boundary scenario of the spec. -/
def hdr16 : HeaderCommon :=
  { magic := MAGIC, version := 3, backing_file_offset := 0,
    backing_file_size := 0, cluster_bits := 16, size := 209715201,
    crypt_method := 0, l1_size := 1, l1_table_offset := 0,
    refcount_table_offset := 0, refcount_table_clusters := 0,
    nb_snapshots := 0, snapshots_offset := 0 }

/-- A facade over hdr16. -/
def q16 : Qcow2 := { header := hdr16, io := fun _ => 0, l2_cache := [] }

/-! Helper lemmas. -/

theorem cluster_size_pos (h : HeaderCommon) : 0 < h.cluster_size := by
  rw [HeaderCommon.cluster_size, Nat.one_shiftLeft]
  exact pow_pos (by norm_num) _

/-- The compressed mask clears exactly the cow and compressed flag bits. -/
theorem l2_compressed_mask_eq : L2_COMPRESSED_MASK = 2 ^ 62 - 1 := by decide

/-- What l2_entry_parse does on an entry with the compressed bit set, in
arithmetic form: with x = 70 - cluster_bits, the position is the low x bits
of the entry and the size is (the entry without its two flag bits, shifted
right by x) times 512. -/
theorem l2_entry_parse_compressed (q : Qcow2) (e : Nat)
    (h9 : 9 ≤ q.header.cluster_bits) (h22 : q.header.cluster_bits ≤ 22)
    (hc : e &&& L2_COMPRESSED ≠ 0) :
    l2_entry_parse q e = .ok (.Compressed (e % 2 ^ (70 - q.header.cluster_bits))
      (decide (e &&& L2_COW ≠ 0))
      (e % 2 ^ 62 / 2 ^ (70 - q.header.cluster_bits) * 512)) := by
  have hx : 70 - q.header.cluster_bits ≤ 62 := by omega
  have hmask : e &&& L2_COMPRESSED_MASK = e % 2 ^ 62 := by
    rw [l2_compressed_mask_eq, Nat.and_pow_two_sub_one_eq_mod]
  rw [l2_entry_parse, if_pos hc]
  have hpos : (e &&& L2_COMPRESSED_MASK) &&&
      ((1 <<< (70 - q.header.cluster_bits)) - 1) =
      e % 2 ^ (70 - q.header.cluster_bits) := by
    rw [hmask, Nat.one_shiftLeft, Nat.and_pow_two_sub_one_eq_mod,
      Nat.mod_mod_of_dvd _ (pow_dvd_pow 2 hx)]
  have hsize : (e &&& L2_COMPRESSED_MASK) >>> (70 - q.header.cluster_bits) =
      e % 2 ^ 62 / 2 ^ (70 - q.header.cluster_bits) := by
    rw [hmask, Nat.shiftRight_eq_div_pow]
  simp only [hpos, hsize]

/-! C4.  div_ceil of src/int.rs (trait Integer, lines 5-11). -/

/-- C4: the claim says div_ceil(a,b) is the ceiling of a/b for b ≠ 0, but
the branches of the source are swapped: it returns quotient + 1 exactly
when the remainder is zero.  At (4,2) it returns 3 though the ceiling is 2,
and at (5,2) it returns 2 though the ceiling is 3. -/
theorem div_ceil_branches_swapped :
    (Integer.div_ceil 4 2 = 3 ∧ (4 + 2 - 1) / 2 = 2) ∧
    (Integer.div_ceil 5 2 = 2 ∧ (5 + 2 - 1) / 2 = 3) := by decide

/-! C6.  L1 entry parsing, src/read.rs lines 11-13 and 53-68. -/

/-- C6: the source mask L1_RESERVED is (0x7F << 56) | 0xFF, which covers
bits 0-7 but not bit 8, although bits 0-8 are reserved in the claim (and in
the qcow2 format).  The 8-byte big-endian L1 entry 0x100 (only reserved
bit 8 set) is therefore accepted and decoded as Standard with position
0x100 instead of failing with FileFormat("reserved bit used in L1 entry"). -/
theorem l1_reserved_bit8_missed :
    vec_read_u64_at [0, 0, 0, 0, 0, 0, 1, 0] 0 = .ok 256 ∧
    l1_entry_read [0, 0, 0, 0, 0, 0, 1, 0] 0 = .ok (.Standard 256 false) ∧
    256 &&& L1_RESERVED = 0 ∧ 256 &&& L1_POS = 256 :=
  ⟨rfl, rfl, by decide, by decide⟩

/-! C7.  Compressed L2 entries, src/read.rs lines 74-86. -/

/-- The position formula of claim C7 (and spec section 3), which uses
62 - cluster_bits as the split point. -/
def compressed_pos_claim (cb e : Nat) : Nat :=
  (e &&& L2_COMPRESSED_MASK) &&& ((1 <<< (62 - cb)) - 1)

/-- The size formula of claim C7 (and spec section 3). -/
def compressed_size_claim (cb e : Nat) : Nat :=
  ((e &&& L2_COMPRESSED_MASK) >>> (62 - cb)) * 512

/-- C7 counterexample: with cluster_bits = 16 the code splits the entry at
bit 70 - 16 = 54, not at 62 - 16 = 46 as the claim states.  On the entry
2^62 + 2^50 (compressed bit plus one payload bit between the two split
points) the code decodes position 2^50 and size 0, while the claim's
formulas give position 0 and size 8192. -/
theorem l2_compressed_split_counterexample :
    l2_entry_parse q16 (2 ^ 62 + 2 ^ 50) = .ok (.Compressed (2 ^ 50) false 0) ∧
    compressed_pos_claim 16 (2 ^ 62 + 2 ^ 50) = 0 ∧
    compressed_size_claim 16 (2 ^ 62 + 2 ^ 50) = 8192 ∧
    ¬((2 : Nat) ^ 50 = 0 ∧ (0 : Nat) = 8192) :=
  ⟨rfl, by decide, by decide, by decide⟩

/-- C7 amended: for every cluster_bits accepted by the header parser, a
compressed L2 entry decodes with split point x = 70 - cluster_bits (that
is, 62 - (cluster_bits - 8)): the position is the low x bits of the entry
and the size is the entry, with the cow and compressed flags masked off,
shifted right by x and multiplied by 512. -/
theorem l2_compressed_decode_amended (q : Qcow2) (e : Nat)
    (h9 : 9 ≤ q.header.cluster_bits) (h22 : q.header.cluster_bits ≤ 22)
    (hc : e &&& L2_COMPRESSED ≠ 0) :
    l2_entry_parse q e = .ok (.Compressed (e % 2 ^ (70 - q.header.cluster_bits))
      (decide (e &&& L2_COW ≠ 0))
      (e % 2 ^ 62 / 2 ^ (70 - q.header.cluster_bits) * 512)) :=
  l2_entry_parse_compressed q e h9 h22 hc

/-- C7 witness: the amended decode law at cluster_bits = 16 and the entry
2^63 + 2^62 + 2^55 + 3 (cow and compressed set, size field 2, position 3). -/
theorem l2_compressed_decode_amended_witness :
    l2_entry_parse q16 (2 ^ 63 + 2 ^ 62 + 2 ^ 55 + 3) =
      .ok (.Compressed 3 true 1024) :=
  l2_compressed_decode_amended q16 (2 ^ 63 + 2 ^ 62 + 2 ^ 55 + 3)
    (by decide) (by decide) (by decide)

/-! C10.  The compressed-entry shift stays in range, src/read.rs 76-85. -/

/-- C10: for every header the parser accepts (9 ≤ cluster_bits ≤ 22) the
shift amount 70 - cluster_bits lies in [48, 61]; both 1 << x and the
decoded position and size stay far below 2^64, so the compressed branch of
l2_entry_parse never overflows 64-bit arithmetic, and it always produces a
Compressed entry. -/
theorem l2_compressed_shift_in_range (q : Qcow2) (e : Nat)
    (h9 : 9 ≤ q.header.cluster_bits) (h22 : q.header.cluster_bits ≤ 22)
    (hc : e &&& L2_COMPRESSED ≠ 0) :
    (48 ≤ 70 - q.header.cluster_bits ∧ 70 - q.header.cluster_bits ≤ 61) ∧
    1 <<< (70 - q.header.cluster_bits) ≤ 2 ^ 61 ∧
    ∃ p c s, l2_entry_parse q e = .ok (.Compressed p c s) ∧
      p < 2 ^ 61 ∧ s < 2 ^ 23 := by
  have hx : 48 ≤ 70 - q.header.cluster_bits ∧ 70 - q.header.cluster_bits ≤ 61 := by
    omega
  refine ⟨hx, ?_, ?_⟩
  · rw [Nat.one_shiftLeft]
    exact Nat.pow_le_pow_right (by norm_num) hx.2
  · refine ⟨_, _, _, l2_entry_parse_compressed q e h9 h22 hc, ?_, ?_⟩
    · calc e % 2 ^ (70 - q.header.cluster_bits) < 2 ^ (70 - q.header.cluster_bits) :=
        Nat.mod_lt _ (pow_pos (by norm_num) _)
      _ ≤ 2 ^ 61 := Nat.pow_le_pow_right (by norm_num) hx.2
    · have hdiv : e % 2 ^ 62 / 2 ^ (70 - q.header.cluster_bits) < 2 ^ 14 := by
        rw [Nat.div_lt_iff_lt_mul (pow_pos (by norm_num) _)]
        calc e % 2 ^ 62 < 2 ^ 62 := Nat.mod_lt _ (by norm_num)
          _ ≤ 2 ^ 14 * 2 ^ (70 - q.header.cluster_bits) := by
            rw [← pow_add]
            exact Nat.pow_le_pow_right (by norm_num) (by omega)
      calc e % 2 ^ 62 / 2 ^ (70 - q.header.cluster_bits) * 512 <
          2 ^ 14 * 512 := by
            exact Nat.mul_lt_mul_of_lt_of_le hdiv le_rfl (by norm_num)
        _ ≤ 2 ^ 23 := by norm_num

/-- C10 witness: the shift bounds and the in-range decode at
cluster_bits = 16 on the entry 2^62 + 5. -/
theorem l2_compressed_shift_in_range_witness :
    (48 ≤ 70 - q16.header.cluster_bits ∧ 70 - q16.header.cluster_bits ≤ 61) ∧
    1 <<< (70 - q16.header.cluster_bits) ≤ 2 ^ 61 ∧
    ∃ p c s, l2_entry_parse q16 (2 ^ 62 + 5) = .ok (.Compressed p c s) ∧
      p < 2 ^ 61 ∧ s < 2 ^ 23 :=
  l2_compressed_shift_in_range q16 (2 ^ 62 + 5) (by decide) (by decide) (by decide)

/-! C3.  The L2 cache is never consulted by the read path. -/

theorem l2_entry_read_cache_free (h : HeaderCommon) (io : Nat → Nat)
    (c₁ c₂ : List (Nat × Nat)) (l1 : List Nat) (g : Nat) :
    l2_entry_read ⟨h, io, c₁⟩ l1 g = l2_entry_read ⟨h, io, c₂⟩ l1 g := rfl

theorem guest_block_read_cache_free (h : HeaderCommon) (io : Nat → Nat)
    (c₁ c₂ : List (Nat × Nat)) (ent : L2Entry) (off : Nat) (buf : List Nat) :
    guest_block_read ⟨h, io, c₁⟩ ent off buf =
      guest_block_read ⟨h, io, c₂⟩ ent off buf := rfl

theorem guest_read_loop_cache_free (h : HeaderCommon) (io : Nat → Nat)
    (c₁ c₂ : List (Nat × Nat)) (l1 : List Nat) :
    ∀ fuel buf offset gbp,
      guest_read_loop ⟨h, io, c₁⟩ l1 fuel buf offset gbp =
        guest_read_loop ⟨h, io, c₂⟩ l1 fuel buf offset gbp := by
  intro fuel
  induction fuel with
  | zero => intro buf offset gbp; rfl
  | succ n ih =>
    intro buf offset gbp
    simp only [guest_read_loop, l2_entry_read_cache_free h io c₁ c₂,
      guest_block_read_cache_free h io c₁ c₂, ih]

/-- C3: the whole guest read path returns the same value whatever the
l2_cache field holds (the cache is neither consulted nor filled: the source
reads every raw L2 entry directly, see the TODO in l2_entry_read_raw), and
each raw L2 entry acquisition is one 8-byte big-endian read at
l2_pos + idx * 8 from the backing source, not a cluster_size-byte fill. -/
theorem guest_read_ignores_l2_cache :
    (∀ (h : HeaderCommon) (io : Nat → Nat) (c₁ c₂ : List (Nat × Nat))
       (l1 : List Nat) (pos : Nat) (buf : List Nat),
       guest_read ⟨h, io, c₁⟩ l1 pos buf = guest_read ⟨h, io, c₂⟩ l1 pos buf) ∧
    (∀ (q : Qcow2) (l2_pos idx : Nat),
       l2_entry_read_raw q l2_pos idx =
         .ok (read_u64_at q.io (l2_pos + idx * 8))) := by
  constructor
  · intro h io c₁ c₂ l1 pos buf
    simp only [guest_read, guest_read_loop_cache_free h io c₁ c₂]
  · intro q l2_pos idx
    rfl

/-! Length and frame lemmas for the guest read loop. -/

theorem zero_fill_eq_replicate (buf : List Nat) :
    zero_fill buf = List.replicate buf.length 0 := by
  induction buf with
  | nil => rfl
  | cons a l ih => simp [zero_fill, List.replicate_succ, *] at ih ⊢

theorem read_exact_at_length (io : Nat → Nat) (pos n : Nat) :
    (read_exact_at io pos n).length = n := by
  simp [read_exact_at]

theorem guest_block_read_length (q : Qcow2) (ent : L2Entry) (off : Nat)
    (buf out : List Nat) (h : guest_block_read q ent off buf = .ok out) :
    out.length = buf.length := by
  cases ent with
  | Empty =>
    simp only [guest_block_read, Except.ok.injEq] at h
    rw [← h, zero_fill_eq_replicate, List.length_replicate]
  | Standard p c z =>
    cases z with
    | true =>
      simp [guest_block_read] at h
      rw [← h, zero_fill_eq_replicate, List.length_replicate]
    | false =>
      simp [guest_block_read] at h
      rw [← h, read_exact_at_length]
  | Compressed p c s =>
    simp [guest_block_read] at h

theorem guest_read_loop_length (q : Qcow2) (l1 : List Nat) :
    ∀ fuel buf offset gbp out,
      guest_read_loop q l1 fuel buf offset gbp = .ok out →
      out.length = buf.length := by
  intro fuel
  induction fuel with
  | zero =>
    intro buf offset gbp out h
    rw [guest_read_loop] at h
    by_cases hb : buf.length = 0
    · rw [if_pos hb] at h
      cases h
      rfl
    · rw [if_neg hb] at h
      cases h
  | succ n ih =>
    intro buf offset gbp out h
    rw [guest_read_loop] at h
    by_cases hb : buf.length = 0
    · rw [if_pos hb] at h
      cases h
      rfl
    · rw [if_neg hb] at h
      cases hent : l2_entry_read q l1 gbp with
      | error e => simp only [hent] at h; cases h
      | ok entry =>
        simp only [hent] at h
        cases hgbr : guest_block_read q entry offset
            (buf.take (min buf.length (q.header.cluster_size - offset))) with
        | error e => simp only [hgbr] at h; cases h
        | ok written =>
          simp only [hgbr] at h
          cases hrec : guest_read_loop q l1 n
              (buf.drop (min buf.length (q.header.cluster_size - offset))) 0
              (gbp + q.header.cluster_size) with
          | error e => simp only [hrec] at h; cases h
          | ok rest =>
            simp only [hrec, Except.ok.injEq] at h
            subst h
            have h1 := guest_block_read_length q entry offset _ _ hgbr
            have h2 := ih _ _ _ _ hrec
            rw [List.length_append, h1, h2, List.length_take, List.length_drop]
            omega


/-! C1.  read_at return count and frame condition. -/

/-- C1: read_at past EOF returns 0 and leaves the buffer untouched; below
EOF, whenever read_at succeeds it returns min(n, guest_size - p), the
buffer keeps its length, and every byte past the returned count is
untouched. -/
theorem read_at_count_and_frame (r : Reader) (pos : Nat) (buf : List Nat) :
    (r.q.header.guest_size ≤ pos → r.read_at pos buf = .ok (0, buf)) ∧
    (∀ k out, pos < r.q.header.guest_size → r.read_at pos buf = .ok (k, out) →
      k = min buf.length (r.q.header.guest_size - pos) ∧
      out.length = buf.length ∧
      out.drop k = buf.drop k) := by
  constructor
  · intro h
    rw [Reader.read_at, guest_read, if_pos h]
  · intro k out hlt h
    rw [Reader.read_at, guest_read, if_neg (by omega)] at h
    cases hL : guest_read_loop r.q r.l1 (min buf.length (r.q.header.guest_size - pos))
        (buf.take (min buf.length (r.q.header.guest_size - pos)))
        (pos % r.q.header.cluster_size)
        (pos - pos % r.q.header.cluster_size) with
    | error e => simp only [hL] at h; cases h
    | ok written =>
      simp only [hL, Except.ok.injEq, Prod.mk.injEq] at h
      obtain ⟨hk, hout⟩ := h
      have hwl : written.length = min buf.length (r.q.header.guest_size - pos) := by
        have := guest_read_loop_length r.q r.l1 _ _ _ _ _ hL
        rw [this, List.length_take]
        omega
      subst hk
      refine ⟨rfl, ?_, ?_⟩
      · rw [← hout, List.length_append, hwl, List.length_drop]
        omega
      · rw [← hout, ← hwl, List.drop_left]

/-- C1 witness: on a reader over a 1024-byte all-unallocated guest, reading
3 bytes at offset 0 succeeds with the buffer zero-filled, and the theorem
instantiates to the expected count, length and frame facts. -/
theorem read_at_count_and_frame_witness :
    3 = min 3 (1024 - 0) ∧
    (List.length [0, 0, 0] : Nat) = List.length ([1, 2, 3] : List Nat) ∧
    List.drop 3 [0, 0, 0] = List.drop 3 ([1, 2, 3] : List Nat) :=
  (read_at_count_and_frame r0 0 [1, 2, 3]).2 3 [0, 0, 0] (by decide) rfl

/-! C2.  Unallocated and zero-flagged ranges read as zeros. -/

/-- A guest cluster position whose translated L2 entry is absent (empty L1
or empty L2 entry) or carries the zero flag. -/
def reads_as_zero (r : Reader) (g : Nat) : Prop :=
  l2_entry_read r.q r.l1 g = .ok .Empty ∨
  ∃ p c, l2_entry_read r.q r.l1 g = .ok (.Standard p c true)

theorem guest_read_loop_zero (r : Reader) :
    ∀ fuel buf offset gbp,
      offset < r.q.header.cluster_size →
      buf.length ≤ fuel →
      (∀ j : Nat, j * r.q.header.cluster_size < offset + buf.length →
        reads_as_zero r (gbp + j * r.q.header.cluster_size)) →
      guest_read_loop r.q r.l1 fuel buf offset gbp =
        .ok (List.replicate buf.length 0) := by
  intro fuel
  induction fuel with
  | zero =>
    intro buf offset gbp hoff hfuel hz
    have hb : buf.length = 0 := by omega
    rw [guest_read_loop, if_pos hb, hb]
    rw [List.length_eq_zero] at hb
    rw [hb]
    rfl
  | succ n ih =>
    intro buf offset gbp hoff hfuel hz
    by_cases hb : buf.length = 0
    · rw [guest_read_loop, if_pos hb, hb]
      rw [List.length_eq_zero] at hb
      rw [hb]
      rfl
    · rw [guest_read_loop, if_neg hb]
      have hcs : 0 < r.q.header.cluster_size := by omega
      have hsz1 : 1 ≤ min buf.length (r.q.header.cluster_size - offset) := by
        omega
      have hszle : min buf.length (r.q.header.cluster_size - offset) ≤ buf.length :=
        min_le_left _ _
      have hent := hz 0 (by omega)
      have hrec : guest_read_loop r.q r.l1 n
          (buf.drop (min buf.length (r.q.header.cluster_size - offset))) 0
          (gbp + r.q.header.cluster_size) =
          .ok (List.replicate
            (buf.length - min buf.length (r.q.header.cluster_size - offset)) 0) := by
        have := ih (buf.drop (min buf.length (r.q.header.cluster_size - offset)))
          0 (gbp + r.q.header.cluster_size) hcs
          (by rw [List.length_drop]; omega) ?_
        · rw [this, List.length_drop]
        · intro j hj
          rw [List.length_drop] at hj
          have hj2 := hz (j + 1) ?_
          · have : gbp + r.q.header.cluster_size + j * r.q.header.cluster_size =
                gbp + (j + 1) * r.q.header.cluster_size := by ring
            rw [this]
            exact hj2
          · rcases Nat.le_total buf.length (r.q.header.cluster_size - offset) with hm | hm
            · rw [min_eq_left hm] at hj
              omega
            · rw [min_eq_right hm] at hj
              have : (j + 1) * r.q.header.cluster_size =
                  j * r.q.header.cluster_size + r.q.header.cluster_size := by ring
              omega
      have hwr : ∀ ent, (ent = L2Entry.Empty ∨ ∃ p c, ent = .Standard p c true) →
          guest_block_read r.q ent offset
            (buf.take (min buf.length (r.q.header.cluster_size - offset))) =
          .ok (List.replicate (min buf.length (r.q.header.cluster_size - offset)) 0) := by
        intro ent hcase
        have hlen : (buf.take (min buf.length (r.q.header.cluster_size - offset))).length =
            min buf.length (r.q.header.cluster_size - offset) := by
          rw [List.length_take]
          omega
        rcases hcase with hcase | ⟨p, c, hcase⟩ <;>
          · subst hcase
            simp [guest_block_read, zero_fill_eq_replicate, hlen]
      rcases hent with hent | ⟨p, c, hent⟩
      · rw [zero_mul, add_zero] at hent
        simp only [hent, hwr L2Entry.Empty (Or.inl rfl), hrec, Except.ok.injEq]
        rw [← List.replicate_add]
        congr 1
        omega
      · rw [zero_mul, add_zero] at hent
        simp only [hent, hwr (L2Entry.Standard p c true) (Or.inr ⟨p, c, rfl⟩), hrec,
          Except.ok.injEq]
        rw [← List.replicate_add]
        congr 1
        omega

/-- C2: when every cluster covering the requested range translates to an
absent mapping or to a zero-flagged entry, read_at succeeds, returns the
full truncated count, and fills exactly those bytes with zeros. -/
theorem read_at_zero_range (r : Reader) (pos : Nat) (buf : List Nat)
    (hlt : pos < r.q.header.guest_size)
    (hz : ∀ j : Nat, j * r.q.header.cluster_size <
        pos % r.q.header.cluster_size +
          min buf.length (r.q.header.guest_size - pos) →
      reads_as_zero r (pos - pos % r.q.header.cluster_size +
        j * r.q.header.cluster_size)) :
    r.read_at pos buf = .ok (min buf.length (r.q.header.guest_size - pos),
      List.replicate (min buf.length (r.q.header.guest_size - pos)) 0 ++
        buf.drop (min buf.length (r.q.header.guest_size - pos))) := by
  have hcs : 0 < r.q.header.cluster_size := cluster_size_pos _
  have hmod : pos % r.q.header.cluster_size < r.q.header.cluster_size :=
    Nat.mod_lt _ hcs
  rw [Reader.read_at, guest_read, if_neg (by omega)]
  have htl : (buf.take (min buf.length (r.q.header.guest_size - pos))).length =
      min buf.length (r.q.header.guest_size - pos) := by
    rw [List.length_take]
    omega
  have hL := guest_read_loop_zero r
    (min buf.length (r.q.header.guest_size - pos))
    (buf.take (min buf.length (r.q.header.guest_size - pos)))
    (pos % r.q.header.cluster_size)
    (pos - pos % r.q.header.cluster_size)
    hmod (by omega) ?_
  · simp only [hL, htl]
  · intro j hj
    rw [htl] at hj
    exact hz j hj

/-- C2 witness: on the all-unallocated reader r0, reading 3 bytes at
offset 0 yields 3 zero bytes. -/
theorem read_at_zero_range_witness :
    Reader.read_at r0 0 [7, 7, 7] = .ok (3, [0, 0, 0]) := by
  have h := read_at_zero_range r0 0 [7, 7, 7] (by decide) ?_
  · exact h
  · intro j hj
    have hj0 : j = 0 := by
      have : r0.q.header.cluster_size = 512 := rfl
      rw [this] at hj
      simp only [List.length_cons, List.length_nil] at hj
      omega
    subst hj0
    exact Or.inl rfl



/-! C5.  The L1 entry count check of validate_common. -/

theorem div_ceil_le_iff (a b k : Nat) (hb : 0 < b) :
    div_ceil a b ≤ k ↔ a ≤ k * b := by
  rw [div_ceil]
  by_cases h : a % b = 0
  · rw [if_pos h]
    have ha : b * (a / b) = a := Nat.mul_div_cancel' (Nat.dvd_of_mod_eq_zero h)
    constructor
    · intro hle
      calc a = b * (a / b) := ha.symm
      _ ≤ b * k := Nat.mul_le_mul_left b hle
      _ = k * b := Nat.mul_comm b k
    · intro hle
      calc a / b ≤ k * b / b := Nat.div_le_div_right hle
      _ = k := Nat.mul_div_cancel k hb
  · rw [if_neg h]
    have hndvd : a ≠ k * b := by
      intro heq
      rw [heq, Nat.mul_mod_left] at h
      exact h rfl
    constructor
    · intro hle
      have : a / b < k := by omega
      have := (Nat.div_lt_iff_lt_mul hb).mp this
      omega
    · intro hle
      have : a < k * b := by omega
      have := (Nat.div_lt_iff_lt_mul hb).mpr this
      omega

theorem div_ceil_div_ceil (a b c : Nat) (hb : 0 < b) (hc : 0 < c) :
    div_ceil (div_ceil a b) c = div_ceil a (b * c) := by
  have H : ∀ k, div_ceil (div_ceil a b) c ≤ k ↔ div_ceil a (b * c) ≤ k := by
    intro k
    rw [div_ceil_le_iff _ _ _ hc, div_ceil_le_iff _ _ _ hb,
      div_ceil_le_iff _ _ _ (Nat.mul_pos hb hc)]
    rw [Nat.mul_assoc, Nat.mul_comm c b]
  exact Nat.le_antisymm ((H _).mpr le_rfl) ((H _).mp le_rfl)

theorem l1_entries_eq_flat_ceil (h : HeaderCommon) (h9 : 9 ≤ h.cluster_bits) :
    h.l1_entries = div_ceil h.size (h.cluster_size * (h.cluster_size / 8)) := by
  have hcs : 0 < h.cluster_size := cluster_size_pos h
  have hl2 : 0 < h.cluster_size / 8 := by
    have h512 : 2 ^ 9 ≤ h.cluster_size := by
      rw [HeaderCommon.cluster_size, Nat.one_shiftLeft]
      exact Nat.pow_le_pow_right (by norm_num) h9
    have hq : 2 ^ 9 / 8 ≤ h.cluster_size / 8 := Nat.div_le_div_right h512
    omega
  rw [HeaderCommon.l1_entries, HeaderCommon.max_virtual_blocks,
    HeaderCommon.l2_entries]
  exact div_ceil_div_ceil _ _ _ hcs hl2

/-- C5: for a header that passes the magic, version, backing-file,
cluster_bits and crypt_method checks, validate_common fails with
FileFormat("bad L1 entry count") exactly when the l1_size field differs
from ceil(size / (cluster_size * (cluster_size / 8))). -/
theorem validate_l1_entry_count (h : HeaderCommon)
    (h1 : h.magic = MAGIC) (h2 : h.version = SUPPORTED_VERSION)
    (h3 : h.backing_file_offset = 0) (h4 : 9 ≤ h.cluster_bits)
    (h5 : h.cluster_bits ≤ 22) (h6 : h.crypt_method = 0) :
    validate_common h = .error (.FileFormat "bad L1 entry count") ↔
      h.l1_size ≠ div_ceil h.size (h.cluster_size * (h.cluster_size / 8)) := by
  rw [validate_common, if_neg (by omega), if_neg (by omega), if_neg (by omega),
    if_neg (by omega), if_neg (by omega)]
  rw [← l1_entries_eq_flat_ceil h h4]
  by_cases hcount : h.l1_size ≠ h.l1_entries
  · rw [if_pos hcount]
    simp [hcount]
  · rw [if_neg hcount]
    simp only [hcount, iff_false]
    intro hcontra
    by_cases hA : !(is_multiple_of h.l1_table_offset h.cluster_size)
    · rw [if_pos hA] at hcontra
      exact absurd (by injection hcontra) (by decide)
    · rw [if_neg hA] at hcontra
      by_cases hB : !(is_multiple_of h.refcount_table_offset h.cluster_size)
      · rw [if_pos hB] at hcontra
        exact absurd (by injection hcontra) (by decide)
      · rw [if_neg hB] at hcontra
        by_cases hC : !(is_multiple_of h.snapshots_offset h.cluster_size)
        · rw [if_pos hC] at hcontra
          exact absurd (by injection hcontra) (by decide)
        · rw [if_neg hC] at hcontra
          cases hcontra

/-- C5 witness: the boundary image of the claim (cluster_bits = 16,
virtual size 200 MiB + 1 byte) needs exactly l1_size = 1, and hdr16, which
declares 1, is not rejected with the bad-L1-entry-count error. -/
theorem validate_l1_entry_count_witness :
    div_ceil 209715201 (hdr16.cluster_size * (hdr16.cluster_size / 8)) = 1 ∧
    ¬(validate_common hdr16 = .error (.FileFormat "bad L1 entry count")) :=
  ⟨by decide,
   fun hcontra =>
     absurd ((validate_l1_entry_count hdr16 rfl rfl rfl (by decide) (by decide)
       rfl).mp hcontra) (by decide)⟩



/-! Concrete byte-level inputs for the header claims. -/

/-- Big-endian encoding of a u32 value. -/
def u32be (n : Nat) : List Nat :=
  [n / 2 ^ 24 % 256, n / 2 ^ 16 % 256, n / 2 ^ 8 % 256, n % 256]

/-- Big-endian encoding of a u64 value. -/
def u64be (n : Nat) : List Nat :=
  [n / 2 ^ 56 % 256, n / 2 ^ 48 % 256, n / 2 ^ 40 % 256, n / 2 ^ 32 % 256,
   n / 2 ^ 24 % 256, n / 2 ^ 16 % 256, n / 2 ^ 8 % 256, n % 256]

/-- An extension phase that consumes only the 8-byte terminator record and
yields no feature-name table. -/
def extT : Nat → Except Error (Nat × List FeatureName) :=
  fun p => .ok (p + 8, [])

/-- The 72-byte common header of a file that is fully valid except for a
backing file: backing_file_offset = 112, which is exactly the position
after the fixed v3 fields (104) plus the 8-byte extension terminator. -/
def bytesC9 : List Nat :=
  u32be MAGIC ++ u32be 3 ++ u64be 112 ++ u32be 1 ++ u32be 16 ++ u64be 0 ++
  u32be 0 ++ u32be 0 ++ u64be 0 ++ u64be 0 ++ u32be 0 ++ u32be 0 ++ u64be 0

/-- bytesC9 as a byte source. -/
def fC9 : Nat → Nat := fun i => bytesC9.getD i 0

/-- A 104-byte header image that passes validate_common (cluster_bits 16,
guest size 200 MiB + 1, l1_size 1) whose v3 suffix declares
refcount_order 4 and header_length 100 (smaller than the 104 bytes already
consumed). -/
def bytesC8 : List Nat :=
  u32be MAGIC ++ u32be 3 ++ u64be 0 ++ u32be 0 ++ u32be 16 ++
  u64be 209715201 ++ u32be 0 ++ u32be 1 ++ u64be 0 ++ u64be 0 ++ u32be 0 ++
  u32be 0 ++ u64be 0 ++ u64be 0 ++ u64be 0 ++ u64be 0 ++ u32be 4 ++ u32be 100

/-- bytesC8 as a byte source. -/
def fC8 : Nat → Nat := fun i => bytesC8.getD i 0

/-! C8.  The header_length field versus the start of the extensions. -/

theorem validate_common_ok_backing (h : HeaderCommon)
    (hok : validate_common h = .ok ()) : h.backing_file_offset = 0 := by
  rw [validate_common] at hok
  split_ifs at hok
  all_goals simp_all

theorem read_v3_ok_header_length (bytes : Nat → Nat) (c : HeaderCommon)
    (ext : Nat → Except Error (Nat × List FeatureName)) (v3 : HeaderV3)
    (hb0 : c.backing_file_offset = 0)
    (hok : read_v3 bytes c ext = .ok v3) :
    v3.header_length = extensions_start bytes := by
  simp only [read_v3] at hok
  cases hext : ext (if beUInt bytes 100 4 > 104 then beUInt bytes 100 4 else 104) with
  | error e => rw [hext] at hok; cases hok
  | ok pr =>
    obtain ⟨posE, table⟩ := pr
    rw [hext] at hok
    simp only [hb0, ne_eq, not_true_eq_false, if_false, ite_false,
      not_false_eq_true, if_neg] at hok
    by_cases hcor : beUInt bytes 72 8 &&& INCOMPATIBLE_CORRUPT ≠ 0
    · rw [if_pos hcor] at hok; cases hok
    · rw [if_neg hcor] at hok
      cases hek : ensure_known INCOMPATIBLE_NAMES 0 table (beUInt bytes 72 8) with
      | error e => rw [hek] at hok; cases hok
      | ok u =>
        rw [hek] at hok
        by_cases hro : beUInt bytes 96 4 > 6
        · rw [if_pos hro] at hok; cases hok
        · rw [if_neg hro] at hok
          by_cases hhl : beUInt bytes 100 4 ≠
              (if beUInt bytes 100 4 > 104 then beUInt bytes 100 4 else 104)
          · rw [if_pos hhl] at hok; cases hok
          · rw [if_neg hhl] at hok
            by_cases hfc : posE > c.cluster_size
            · rw [if_pos hfc] at hok; cases hok
            · rw [if_neg hfc] at hok
              cases hok
              rw [not_ne_iff] at hhl
              rw [extensions_start]
              exact hhl

/-- C8: (1) every accepted file declares header_length equal to the cursor
position at which the extension records begin (the fixed 104-byte prefix,
or the declared length itself when it is larger and is skipped as padding);
(2) a file whose declared header_length is at least 104 is not rejected for
its header_length (given the other validations pass, open succeeds); (3) a
declared header_length below the 104 bytes already consumed is rejected
with FileFormat("header is 104 bytes, file claims ..."). -/
theorem header_length_is_extension_start :
    (∀ (bytes : Nat → Nat) (ext : Nat → Except Error (Nat × List FeatureName))
       (c : HeaderCommon) (v3 : HeaderV3),
       header_read bytes ext = .ok (c, v3) →
       v3.header_length = extensions_start bytes) ∧
    (∀ (bytes : Nat → Nat) (ext : Nat → Except Error (Nat × List FeatureName))
       (posE : Nat) (table : List FeatureName),
       validate_common (parse_common bytes) = .ok () →
       ext (extensions_start bytes) = .ok (posE, table) →
       104 ≤ beUInt bytes 100 4 →
       beUInt bytes 72 8 &&& INCOMPATIBLE_CORRUPT = 0 →
       feature_unknown 2 (beUInt bytes 72 8) = 0 →
       beUInt bytes 96 4 ≤ 6 →
       posE ≤ (parse_common bytes).cluster_size →
       ∃ v3, header_read bytes ext = .ok (parse_common bytes, v3) ∧
         v3.header_length = beUInt bytes 100 4) ∧
    (∀ (bytes : Nat → Nat) (ext : Nat → Except Error (Nat × List FeatureName))
       (posE : Nat) (table : List FeatureName),
       validate_common (parse_common bytes) = .ok () →
       ext 104 = .ok (posE, table) →
       beUInt bytes 100 4 < 104 →
       beUInt bytes 72 8 &&& INCOMPATIBLE_CORRUPT = 0 →
       feature_unknown 2 (beUInt bytes 72 8) = 0 →
       beUInt bytes 96 4 ≤ 6 →
       header_read bytes ext = .error (.FileFormat ("header is " ++
         toString (104 : Nat) ++ " bytes, file claims " ++
         toString (beUInt bytes 100 4)))) := by
  refine ⟨?_, ?_, ?_⟩
  · intro bytes ext c v3 hok
    rw [header_read, read_common] at hok
    cases hval : validate_common (parse_common bytes) with
    | error e => simp only [hval] at hok; cases hok
    | ok u =>
      simp only [hval] at hok
      cases hv3 : read_v3 bytes (parse_common bytes) ext with
      | error e => simp only [hv3] at hok; cases hok
      | ok v3b =>
        simp only [hv3, Except.ok.injEq, Prod.mk.injEq] at hok
        obtain ⟨hc, hv⟩ := hok
        rw [← hv]
        exact read_v3_ok_header_length bytes (parse_common bytes) ext v3b
          (validate_common_ok_backing _ hval) hv3
  · intro bytes ext posE table hval hext hge hcor hunk hro hfc
    have hb0 := validate_common_ok_backing _ hval
    rw [extensions_start] at hext
    rw [header_read, read_common]
    simp only [hval]
    simp only [read_v3, hext, hb0, ne_eq, not_true_eq_false, if_false,
      not_false_eq_true, if_neg]
    rw [if_neg (by simp [hcor])]
    have hek : ensure_known INCOMPATIBLE_NAMES 0 table (beUInt bytes 72 8) =
        .ok () := by
      rw [ensure_known]
      have hlen : INCOMPATIBLE_NAMES.length = 2 := rfl
      rw [hlen, if_pos hunk]
    rw [hek]
    rw [if_neg (by omega)]
    rw [if_neg (show ¬(beUInt bytes 100 4 ≠
      (if beUInt bytes 100 4 > 104 then beUInt bytes 100 4 else 104)) by
        by_cases hgt : beUInt bytes 100 4 > 104
        · rw [if_pos hgt]; omega
        · rw [if_neg hgt]; omega)]
    rw [if_neg (by omega)]
    exact ⟨_, rfl, rfl⟩
  · intro bytes ext posE table hval hext hlt hcor hunk hro
    have hb0 := validate_common_ok_backing _ hval
    have hes : (if beUInt bytes 100 4 > 104 then beUInt bytes 100 4 else 104) =
        104 := by rw [if_neg (by omega)]
    rw [header_read, read_common]
    simp only [hval]
    simp only [read_v3, hes, hext, hb0, ne_eq, not_true_eq_false, if_false,
      not_false_eq_true, if_neg]
    rw [if_neg (by simp [hcor])]
    have hek : ensure_known INCOMPATIBLE_NAMES 0 table (beUInt bytes 72 8) =
        .ok () := by
      rw [ensure_known]
      have hlen : INCOMPATIBLE_NAMES.length = 2 := rfl
      rw [hlen, if_pos hunk]
    rw [hek]
    rw [if_neg (by omega)]
    rw [if_pos (by omega)]

/-- C8 witness: the concrete 104-byte header bytesC8, otherwise fully
valid, declares header_length 100 and is rejected with the exact message
"header is 104 bytes, file claims 100". -/
theorem header_length_is_extension_start_witness :
    header_read fC8 extT = .error (.FileFormat "header is 104 bytes, file claims 100") :=
  header_length_is_extension_start.2.2 fC8 extT 112 [] rfl rfl (by decide)
    (by decide) (by decide) (by decide)

/-! C9.  Nonzero backing_file_offset is rejected outright. -/

/-- C9 counterexample: fC9 carries backing_file_offset = 112, which equals
the cursor position after the extensions under extT (104 + 8), so it
satisfies the consistency condition of the claim, yet open rejects it with
UnsupportedFeature("backing file"): validate_common refuses every nonzero
backing_file_offset before read_v3 ever reaches its consistency check. -/
theorem backing_file_consistent_counterexample :
    beUInt fC9 8 8 = 112 ∧
    extT (extensions_start fC9) = .ok (112, []) ∧
    header_read fC9 extT = .error (.UnsupportedFeature "backing file") :=
  ⟨rfl, rfl, rfl⟩

/-- C9 amended: open() rejects every header with a nonzero
backing_file_offset with UnsupportedFeature("backing file") during
validate_common, before the consistency check of read_v3 can run; the
claimed acceptance path for consistent backing files is dead code. -/
theorem backing_file_always_rejected (bytes : Nat → Nat)
    (ext : Nat → Except Error (Nat × List FeatureName))
    (h1 : beUInt bytes 0 4 = MAGIC) (h2 : beUInt bytes 4 4 = SUPPORTED_VERSION)
    (h3 : beUInt bytes 8 8 ≠ 0) :
    header_read bytes ext = .error (.UnsupportedFeature "backing file") := by
  rw [header_read, read_common]
  have hval : validate_common (parse_common bytes) =
      .error (.UnsupportedFeature "backing file") := by
    rw [validate_common]
    simp only [parse_common]
    rw [if_neg (by simp [h1]), if_neg (by simp [h2]), if_pos h3]
  simp only [hval]

/-- C9 witness for the amended claim: the concrete file fC9. -/
theorem backing_file_always_rejected_witness :
    header_read fC9 extT = .error (.UnsupportedFeature "backing file") :=
  backing_file_always_rejected fC9 extT rfl rfl (by decide)


end Qcow2Rs
